import Mathlib

/-!
Verification development for the tablet-manager / transaction-tracker core
(`ts_tablet_manager.cc`, `transaction_tracker.cc`).

The C++ state is embedded shallowly: maps (`std::tr1::unordered_map`,
`std::unordered_set`) become association lists with unique keys, machine
integers whose overflow is unreachable along the verified paths become `Nat`
or `Int`, and calls that can abort the process (`CHECK`, `InsertOrDie`,
`FindOrDie`) are modelled by returning `none`.  Collaborator objects that
live outside the translated sources (the tablet peer, the memory tracker)
are modelled from the specification and marked as such in their doc
comments.
-/

/-- `Status` mirrors `kudu::Status` restricted to the codes the translated
functions actually produce.  `timedOut` carries the pending-transaction
count and the elapsed wait in microseconds that `WaitForAllToFinish`
formats into its message. -/
inductive Status where
  | ok
  | alreadyPresent
  | notFound
  | serviceUnavailable
  | timedOut (pending : Nat) (elapsedUs : Nat)
  | upstreamError
deriving DecidableEq, Repr

/-- Tablet peer lifecycle states (`metadata::TabletStatePB`). -/
inductive TabletStatePB where
  | INITIALIZING
  | RUNNING
  | QUIESCING
  | SHUTDOWN
  | FAILED
deriving DecidableEq, Repr

/-- Quorum peer roles (`metadata::QuorumPeerPB::Role`), restricted to the
roles the translated code distinguishes. -/
inductive QuorumRole where
  | LEADER
  | FOLLOWER
  | LEARNER
deriving DecidableEq, Repr

/-- Modelled from the spec: the *Tablet Peer* collaborator
(`tablet::TabletPeer`, whose implementation is not among the translated
sources).  The manager only reads its identifier, lifecycle state, error,
role and (when the tablet object is materialized) schema version;
`schema_version = none` models `tablet() == NULL`. -/
structure TabletPeer where
  tablet_id : String
  state : TabletStatePB
  error : String
  role : QuorumRole
  schema_version : Option Nat
deriving DecidableEq, Repr

/-- Modelled from the spec: `TabletPeer::Shutdown()` returns the peer's
prior lifecycle state and leaves the peer shut down. -/
def TabletPeer.shutdown (p : TabletPeer) : TabletStatePB × TabletPeer :=
  (p.state, { p with state := TabletStatePB.SHUTDOWN })

/-- `master::ReportedTabletPB`: one reported tablet inside a report. -/
structure ReportedTabletPB where
  tablet_id : String
  state : TabletStatePB
  error : Option String
  role : QuorumRole
  schema_version : Option Nat
deriving DecidableEq, Repr

/-- `master::TabletReportPB`. -/
structure TabletReportPB where
  sequence_number : Nat
  is_incremental : Bool
  updated_tablets : List ReportedTabletPB
  removed_tablet_ids : List String
deriving DecidableEq, Repr

/-- `gutil` `FindOrNull` on an association list with unique keys. -/
def findOrNull {α β : Type} [DecidableEq α] : List (α × β) → α → Option β
  | [], _ => none
  | e :: rest, key => if e.1 = key then some e.2 else findOrNull rest key

/-- `unordered_map::erase(key)` on an association list with unique keys. -/
def eraseKey {α β : Type} [DecidableEq α] : List (α × β) → α → List (α × β)
  | [], _ => []
  | e :: rest, key =>
    if e.1 = key then eraseKey rest key else e :: eraseKey rest key

/-- Tablet-manager lifecycle states (`TSTabletManagerStatePB`). -/
inductive TSTabletManagerStatePB where
  | MANAGER_INITIALIZING
  | MANAGER_RUNNING
  | MANAGER_QUIESCING
  | MANAGER_SHUTDOWN
deriving DecidableEq, Repr

/-- The state of `TSTabletManager` that the translated member functions
read or write: the tablet map, the creates-in-progress set, the dirty map
(tablet id to `TabletReportState::change_seq`), the report sequence counter
and the manager lifecycle state, all protected by `lock_` in the source. -/
structure TSTabletManager where
  tablet_map : List (String × TabletPeer)
  creates_in_progress : List String
  dirty_tablets : List (String × Nat)
  next_report_seq : Nat
  state : TSTabletManagerStatePB
deriving DecidableEq, Repr

/-- `TSTabletManager::CreateReportedTabletPB`: the error field is set only
for a peer in the `FAILED` state and the schema version only when the
tablet object is materialized. -/
def createReportedTabletPB (tablet_id : String) (tablet_peer : TabletPeer) :
    ReportedTabletPB :=
  { tablet_id := tablet_id
    state := tablet_peer.state
    error := if tablet_peer.state = TabletStatePB.FAILED
             then some tablet_peer.error else none
    role := tablet_peer.role
    schema_version := tablet_peer.schema_version }

/-- The body of the `BOOST_FOREACH` loop in
`GenerateIncrementalTabletReport`: a dirty entry still present in the
tablet map is appended to `updated_tablets`, an absent one to
`removed_tablet_ids`. -/
def incrementalReportStep (tablet_map : List (String × TabletPeer))
    (r : TabletReportPB) (dirty_entry : String × Nat) : TabletReportPB :=
  match findOrNull tablet_map dirty_entry.1 with
  | some tablet_peer =>
    let upd := r.updated_tablets ++ [createReportedTabletPB dirty_entry.1 tablet_peer]
    { r with updated_tablets := upd }
  | none =>
    { r with removed_tablet_ids := r.removed_tablet_ids ++ [dirty_entry.1] }

/-- `TSTabletManager::GenerateIncrementalTabletReport`: assign
`next_report_seq_++` as the sequence number, mark the report incremental,
then walk the dirty map, reporting each identifier still present in the
tablet map and listing the rest as removed.  The dirty map is not
modified. -/
def generateIncrementalTabletReport (st : TSTabletManager) :
    TabletReportPB × TSTabletManager :=
  let report0 : TabletReportPB :=
    { sequence_number := st.next_report_seq
      is_incremental := true
      updated_tablets := []
      removed_tablet_ids := [] }
  let report := st.dirty_tablets.foldl (incrementalReportStep st.tablet_map) report0
  (report, { st with next_report_seq := st.next_report_seq + 1 })

/-- The body of the `BOOST_FOREACH` loop in `GenerateFullTabletReport`:
every tablet-map entry is appended to `updated_tablets`. -/
def fullReportStep (r : TabletReportPB) (entry : String × TabletPeer) :
    TabletReportPB :=
  let upd := r.updated_tablets ++ [createReportedTabletPB entry.1 entry.2]
  { r with updated_tablets := upd }

/-- `TSTabletManager::GenerateFullTabletReport`: assign the next sequence
number, mark the report non-incremental, report every tablet-map entry and
clear the dirty map. -/
def generateFullTabletReport (st : TSTabletManager) :
    TabletReportPB × TSTabletManager :=
  let report0 : TabletReportPB :=
    { sequence_number := st.next_report_seq
      is_incremental := false
      updated_tablets := []
      removed_tablet_ids := [] }
  let report := st.tablet_map.foldl fullReportStep report0
  (report, { st with next_report_seq := st.next_report_seq + 1, dirty_tablets := [] })

/-- `TSTabletManager::MarkTabletReportAcknowledged`: `CHECK_LT(acked_seq,
next_report_seq_)` (modelled by `none` on violation), then erase every
dirty entry whose `change_seq <= acked_seq`. -/
def markTabletReportAcknowledged (st : TSTabletManager) (acked_seq : Nat) :
    Option TSTabletManager :=
  if acked_seq < st.next_report_seq then
    let kept := st.dirty_tablets.filter (fun dirty_entry => decide (acked_seq < dirty_entry.2))
    some { st with dirty_tablets := kept }
  else
    none

/-- `TSTabletManager::MarkDirtyUnlocked`: update an existing dirty entry's
`change_seq` to `next_report_seq_`, or insert a fresh entry with that
sequence.  (The source's `CHECK_GE(next_report_seq_, state->change_seq)`
always holds because a `change_seq` is only ever a past value of the
monotonically non-decreasing `next_report_seq_`; the model elides the
process abort.) -/
def markDirtyUnlocked (st : TSTabletManager) (tablet_peer : TabletPeer) :
    TSTabletManager :=
  match findOrNull st.dirty_tablets tablet_peer.tablet_id with
  | some _ =>
    let renumbered := st.dirty_tablets.map
      (fun e => if e.1 = tablet_peer.tablet_id then (e.1, st.next_report_seq) else e)
    { st with dirty_tablets := renumbered }
  | none =>
    let inserted := st.dirty_tablets ++ [(tablet_peer.tablet_id, st.next_report_seq)]
    { st with dirty_tablets := inserted }

/-- Iterated `MarkTabletDirty` (each call takes the lock and delegates to
`MarkDirtyUnlocked`). -/
def markDirtyAll (st : TSTabletManager) (tablet_peers : List TabletPeer) :
    TSTabletManager :=
  tablet_peers.foldl markDirtyUnlocked st

/-- `TSTabletManager::DeleteTablet`: shut the peer down first, fail with
`ServiceUnavailable` when its prior state was `QUIESCING` or `SHUTDOWN`,
otherwise erase the map entry (`CHECK_EQ(1, tablet_map_.erase(...))`
aborts when the entry is absent, modelled by `none`).  The shut-down peer
is returned alongside so the model keeps track of its final state. -/
def deleteTablet (st : TSTabletManager) (tablet_peer : TabletPeer) :
    Option (Status × TSTabletManager × TabletPeer) :=
  let shut := tablet_peer.shutdown
  let prev_state := shut.1
  if prev_state = TabletStatePB.QUIESCING ∨ prev_state = TabletStatePB.SHUTDOWN then
    some (Status.serviceUnavailable, st, shut.2)
  else
    match findOrNull st.tablet_map tablet_peer.tablet_id with
    | some _ =>
      let erased := { st with tablet_map := eraseKey st.tablet_map tablet_peer.tablet_id }
      some (Status.ok, erased, shut.2)
    | none => none

/-- `metadata::QuorumPeerPB` restricted to the fields the translated code
reads. -/
structure QuorumPeerPB where
  permanent_uuid : String
  role : QuorumRole
deriving DecidableEq, Repr

/-- `metadata::QuorumPB` restricted to the fields the translated code
reads (`local()`, `peers()`, `seqno()`). -/
structure QuorumPB where
  isLocal : Bool
  peers : List QuorumPeerPB
  seqno : Int
deriving DecidableEq, Repr

/-- The `CHECK`s `CreateNewTablet` performs on a local-consensus quorum:
exactly one peer, whose uuid is the server's own, in the leader role. -/
def localQuorumChecksPass (serverUuid : String) (quorum : QuorumPB) : Bool :=
  match quorum.peers with
  | [p] => decide (p.permanent_uuid = serverUuid) && decide (p.role = QuorumRole.LEADER)
  | _ => false

/-- Outcomes of the fallible collaborator calls `CreateNewTablet` makes
after inserting into the creates-in-progress set:
`TabletMetadata::CreateNew`, `PersistMasterBlock`, and
`ThreadPool::SubmitFunc` for the open job. -/
structure CreateOracle where
  createNewOk : Bool
  persistOk : Bool
  submitOk : Bool
deriving DecidableEq, Repr

/-- Modelled from the spec: a freshly constructed `TabletPeer` starts in
the *initializing* lifecycle state (the constructor is not among the
translated sources). -/
def newTabletPeer (tablet_id : String) : TabletPeer :=
  { tablet_id := tablet_id
    state := TabletStatePB.INITIALIZING
    error := ""
    role := QuorumRole.FOLLOWER
    schema_version := none }

/-- The `CreatesInProgressDeleter` destructor: erase the entry from the
creates-in-progress set at scope exit (its `CHECK(set_->erase(entry_))`
holds on these paths because the entry was inserted and never removed in
between). -/
def createsInProgressErase (st : TSTabletManager) (tablet_id : String) :
    TSTabletManager :=
  let remaining := st.creates_in_progress.filter (fun e => decide (e ≠ tablet_id))
  { st with creates_in_progress := remaining }

/-- `TSTabletManager::CreateNewTablet`.  `none` models a `CHECK` failure
(manager not running, bad local quorum, or `RegisterTablet`'s
`InsertOrDie` on a duplicate).  Under the lock: reject `AlreadyPresent`
when the id is in the tablet map or the creates-in-progress set, else
insert into the set.  Outside the lock, every exit path (metadata
creation failure, master-block persist failure, submit failure, success)
runs the `CreatesInProgressDeleter`.  The string arguments and the quorum
seqno reset feed only the metadata collaborator, which the oracle
abstracts. -/
def createNewTablet (st : TSTabletManager) (serverUuid : String)
    (tablet_id : String) (quorum : QuorumPB) (o : CreateOracle) :
    Option (Status × TSTabletManager) :=
  if st.state ≠ TSTabletManagerStatePB.MANAGER_RUNNING then
    none
  else if quorum.isLocal && !(localQuorumChecksPass serverUuid quorum) then
    none
  else if (findOrNull st.tablet_map tablet_id).isSome then
    some (Status.alreadyPresent, st)
  else if tablet_id ∈ st.creates_in_progress then
    some (Status.alreadyPresent, st)
  else
    let st1 := { st with creates_in_progress := tablet_id :: st.creates_in_progress }
    if !o.createNewOk then
      some (Status.upstreamError, createsInProgressErase st1 tablet_id)
    else if !o.persistOk then
      some (Status.upstreamError, createsInProgressErase st1 tablet_id)
    else if (findOrNull st1.tablet_map tablet_id).isSome then
      none
    else
      let registered := st1.tablet_map ++ [(tablet_id, newTabletPeer tablet_id)]
      let st2 := { st1 with tablet_map := registered }
      if !o.submitOk then
        some (Status.upstreamError, createsInProgressErase st2 tablet_id)
      else
        some (Status.ok, createsInProgressErase st2 tablet_id)

/-- Transaction types (`Transaction::TransactionType`). -/
inductive TxType where
  | WRITE_TXN
  | ALTER_SCHEMA_TXN
deriving DecidableEq, Repr

/-- A `TransactionDriver` as the tracker sees it: an identity (the map
key, standing in for the pointer), the serialized request's
`SpaceUsed()`, and the transaction type. -/
structure TransactionDriver where
  id : Nat
  reqSpaceUsed : Nat
  txType : TxType
deriving DecidableEq, Repr

/-- `TransactionTracker::Metrics`: three in-flight gauges and the two
rejection counters. -/
structure TrackerMetrics where
  all_transactions_inflight : Nat
  write_transactions_inflight : Nat
  alter_schema_transactions_inflight : Nat
  transaction_memory_pressure_rejections : Nat
  transaction_memory_limit_rejections : Nat
deriving DecidableEq, Repr

/-- One node of the memory-tracker tree: a byte count and an optional
limit. -/
structure MemTrackerNode where
  consumption : Nat
  limit : Option Nat
deriving DecidableEq, Repr

/-- Whether one node can absorb `bytes` more without exceeding its
limit. -/
def MemTrackerNode.canConsume (n : MemTrackerNode) (bytes : Nat) : Bool :=
  match n.limit with
  | none => true
  | some l => decide (n.consumption + bytes ≤ l)

/-- Modelled from the spec: the *Memory Tracker* collaborator
(`kudu::MemTracker`, not among the translated sources) — a node plus its
chain of ancestors. -/
structure MemTracker where
  self : MemTrackerNode
  ancestors : List MemTrackerNode
deriving DecidableEq, Repr

/-- Modelled from the spec: `MemTracker::TryConsume` walks up the tree
reserving against each ancestor's limit; if any node (including self)
would exceed its limit the whole reservation is rolled back and the call
returns `false` leaving consumption unchanged. -/
def MemTracker.tryConsume (t : MemTracker) (bytes : Nat) : Bool × MemTracker :=
  if t.self.canConsume bytes && t.ancestors.all (fun n => n.canConsume bytes) then
    (true,
     { self := { t.self with consumption := t.self.consumption + bytes }
       ancestors := t.ancestors.map
         (fun n => { n with consumption := n.consumption + bytes }) })
  else
    (false, t)

/-- Modelled from the spec: `MemTracker::CanConsumeNoAncestors` checks
only this tracker's own limit, ignoring ancestors. -/
def MemTracker.canConsumeNoAncestors (t : MemTracker) (bytes : Nat) : Bool :=
  t.self.canConsume bytes

/-- Modelled from the spec: `MemTracker::Release` gives the bytes back at
every level of the tree. -/
def MemTracker.release (t : MemTracker) (bytes : Nat) : MemTracker :=
  { self := { t.self with consumption := t.self.consumption - bytes }
    ancestors := t.ancestors.map
      (fun n => { n with consumption := n.consumption - bytes }) }

/-- The state of `TransactionTracker`: the pending-transaction map (driver
to its cached `State::memory_footprint`), the optional metric set and the
optional memory tracker. -/
structure TransactionTracker where
  pending_txns : List (Nat × Nat)
  metrics : Option TrackerMetrics
  mem_tracker : Option MemTracker
deriving DecidableEq, Repr

/-- `TransactionTracker::IncrementCounters`: a no-op without metrics,
otherwise bump the aggregate gauge and the per-type gauge. -/
def incrementCounters (metrics : Option TrackerMetrics) (txType : TxType) :
    Option TrackerMetrics :=
  match metrics with
  | none => none
  | some m =>
    let m1 := { m with all_transactions_inflight := m.all_transactions_inflight + 1 }
    match txType with
    | TxType.WRITE_TXN =>
      some { m1 with write_transactions_inflight := m1.write_transactions_inflight + 1 }
    | TxType.ALTER_SCHEMA_TXN =>
      some { m1 with alter_schema_transactions_inflight :=
               m1.alter_schema_transactions_inflight + 1 }

/-- `TransactionTracker::DecrementCounters`: a no-op without metrics,
otherwise decrement the aggregate gauge and the per-type gauge.  (The
gauges are `uint64`; the `DCHECK_GT(..., 0)` guards assert they are
non-zero, so truncated subtraction agrees with the machine on every
reachable call.) -/
def decrementCounters (metrics : Option TrackerMetrics) (txType : TxType) :
    Option TrackerMetrics :=
  match metrics with
  | none => none
  | some m =>
    let m1 := { m with all_transactions_inflight := m.all_transactions_inflight - 1 }
    match txType with
    | TxType.WRITE_TXN =>
      some { m1 with write_transactions_inflight := m1.write_transactions_inflight - 1 }
    | TxType.ALTER_SCHEMA_TXN =>
      some { m1 with alter_schema_transactions_inflight :=
               m1.alter_schema_transactions_inflight - 1 }

/-- `TransactionTracker::Add`: measure the footprint; with a memory
tracker attached, `TryConsume` it — on failure bump
`transaction_memory_pressure_rejections` and, when even this tracker
alone could not absorb the footprint
(`!CanConsumeNoAncestors`), also
`transaction_memory_limit_rejections`, then return `ServiceUnavailable`.
On success increment the gauges and `InsertOrDie` the driver with its
cached footprint (`none` models the process abort on a duplicate). -/
def TransactionTracker.add (t : TransactionTracker) (driver : TransactionDriver) :
    Option (Status × TransactionTracker) :=
  let driver_mem_footprint := driver.reqSpaceUsed
  match t.mem_tracker with
  | some mt =>
    let attempt := mt.tryConsume driver_mem_footprint
    if attempt.1 then
      let t1 := { t with mem_tracker := some attempt.2
                         metrics := incrementCounters t.metrics driver.txType }
      if (findOrNull t1.pending_txns driver.id).isSome then
        none
      else
        some (Status.ok,
              { t1 with pending_txns := (driver.id, driver_mem_footprint) :: t1.pending_txns })
    else
      let metrics' :=
        match t.metrics with
        | none => none
        | some m =>
          let m1 := { m with transaction_memory_pressure_rejections :=
                        m.transaction_memory_pressure_rejections + 1 }
          if mt.canConsumeNoAncestors driver_mem_footprint then
            some m1
          else
            some { m1 with transaction_memory_limit_rejections :=
                     m1.transaction_memory_limit_rejections + 1 }
      some (Status.serviceUnavailable, { t with metrics := metrics' })
  | none =>
    let t1 := { t with metrics := incrementCounters t.metrics driver.txType }
    if (findOrNull t1.pending_txns driver.id).isSome then
      none
    else
      some (Status.ok,
            { t1 with pending_txns := (driver.id, driver_mem_footprint) :: t1.pending_txns })

/-- `TransactionTracker::Release`: decrement the gauges, `FindOrDie` the
cached footprint (`none` models the abort when the driver is not
pending), release it to the memory tracker if one is attached, and erase
the entry (the erase-count check cannot fail once the lookup
succeeded). -/
def TransactionTracker.release (t : TransactionTracker) (driver : TransactionDriver) :
    Option TransactionTracker :=
  let t1 := { t with metrics := decrementCounters t.metrics driver.txType }
  match findOrNull t1.pending_txns driver.id with
  | none => none
  | some footprint =>
    let mem' :=
      match t1.mem_tracker with
      | some mt => some (mt.release footprint)
      | none => none
    some { t1 with mem_tracker := mem'
                   pending_txns := eraseKey t1.pending_txns driver.id }

/-- A sequence of `Add` calls, propagating a process abort. -/
def TransactionTracker.addAll (t : TransactionTracker) :
    List TransactionDriver → Option TransactionTracker
  | [] => some t
  | driver :: rest =>
    match t.add driver with
    | none => none
    | some (_, t') => t'.addAll rest

/-- The rejection-counter invariant claimed for the tracker:
`transaction_memory_limit_rejections` never exceeds
`transaction_memory_pressure_rejections`. -/
def rejectionCountersLe (t : TransactionTracker) : Prop :=
  ∀ m, t.metrics = some m →
    m.transaction_memory_limit_rejections ≤ m.transaction_memory_pressure_rejections

/-- The cross-flag validator `ValidateTransactionMemoryAndRpcSize`:
`true` means the configuration is accepted.  (`int64` arithmetic is
modelled in `Int`; the multiplication cannot overflow for any value the
flag validator `ValidateTransactionMemoryLimit` admits.) -/
def ValidateTransactionMemoryAndRpcSize
    (tablet_transaction_memory_limit_mb rpc_max_message_size : Int) : Bool :=
  let transaction_max_size := tablet_transaction_memory_limit_mb * 1024 * 1024
  let rpc_max_size := rpc_max_message_size
  if transaction_max_size ≥ 0 ∧ transaction_max_size < rpc_max_size then
    false
  else
    true

/-- One observation the drain loop makes per round: the size of the
pending snapshot `GetPendingTransactions` returns and the monotonic clock
value `MonoTime::Now()` in microseconds. -/
structure WaitObs where
  pending : Nat
  now : Nat
deriving DecidableEq, Repr

/-- The backoff update `std::min(wait_time_us * 5 / 4, 1000000)` applied
to `wait_time_us` before every sleep. -/
def backoffStep (wait_time_us : Nat) : Nat :=
  min (wait_time_us * 5 / 4) 1000000

/-- `backoffStep` iterated from a seed. -/
def backoffFrom (wait_time_us : Nat) : Nat → Nat
  | 0 => wait_time_us
  | n + 1 => backoffStep (backoffFrom wait_time_us n)

/-- The loop body of `TransactionTracker::WaitForAllToFinish`, one trace
entry per round, carrying the current `wait_time_us`.  Returns the status
(`none` when the modelled trace ends with the loop still running) and the
list of sleep durations in microseconds.  The logging block (complaint
counter, `next_log_time`) only emits log lines and is elided. -/
def waitForAllToFinishAux (timeout start_time : Nat) :
    Nat → List WaitObs → Option Status × List Nat
  | _, [] => (none, [])
  | wait_time_us, obs :: rest =>
    if obs.pending = 0 then
      (some Status.ok, [])
    else
      let diff := obs.now - start_time
      if timeout < diff then
        (some (Status.timedOut obs.pending diff), [])
      else
        let w := backoffStep wait_time_us
        let next := waitForAllToFinishAux timeout start_time w rest
        (next.1, w :: next.2)

/-- `TransactionTracker::WaitForAllToFinish(timeout)`: the loop starts
with `wait_time_us = 250`. -/
def waitForAllToFinish (timeout start_time : Nat) (trace : List WaitObs) :
    Option Status × List Nat :=
  waitForAllToFinishAux timeout start_time 250 trace

/-- The reported tablets an incremental report generated over `tablet_map`
produces from a dirty map, in dirty-map order: one record per dirty entry
still present in the tablet map. -/
def updatedOf (tablet_map : List (String × TabletPeer))
    (dirty : List (String × Nat)) : List ReportedTabletPB :=
  dirty.filterMap
    (fun e => (findOrNull tablet_map e.1).map (fun peer => createReportedTabletPB e.1 peer))

/-- The removed identifiers an incremental report generated over
`tablet_map` produces from a dirty map: one per dirty entry absent from
the tablet map. -/
def removedOf (tablet_map : List (String × TabletPeer))
    (dirty : List (String × Nat)) : List String :=
  dirty.filterMap
    (fun e =>
      match findOrNull tablet_map e.1 with
      | some _ => none
      | none => some e.1)

/-- A report mentions an identifier when it appears among the updated
tablets or the removed identifiers. -/
def reportMentions (r : TabletReportPB) (tablet_id : String) : Prop :=
  tablet_id ∈ r.updated_tablets.map ReportedTabletPB.tablet_id ∨
    tablet_id ∈ r.removed_tablet_ids

/- ------------------------------------------------------------------ -/
/- Helper lemmas                                                      -/
/- ------------------------------------------------------------------ -/

theorem findOrNull_eq_none_iff {α β : Type} [DecidableEq α]
    (m : List (α × β)) (key : α) :
    findOrNull m key = none ↔ key ∉ m.map Prod.fst := by
  induction m with
  | nil => simp [findOrNull]
  | cons e rest ih =>
    simp only [findOrNull, List.map_cons, List.mem_cons]
    by_cases h : e.1 = key
    · subst h
      simp
    · rw [if_neg h, ih]
      have h' : ¬key = e.1 := fun hk => h hk.symm
      simp [h']

theorem findOrNull_isSome_iff {α β : Type} [DecidableEq α]
    (m : List (α × β)) (key : α) :
    (findOrNull m key).isSome = true ↔ key ∈ m.map Prod.fst := by
  rcases h : findOrNull m key with _ | v
  · simpa [h] using (findOrNull_eq_none_iff m key).mp h
  · simp only [Option.isSome_some, true_iff]
    by_contra hmem
    rw [← findOrNull_eq_none_iff m key] at hmem
    simp [h] at hmem

theorem eraseKey_of_not_found {α β : Type} [DecidableEq α]
    (m : List (α × β)) (key : α) (h : findOrNull m key = none) :
    eraseKey m key = m := by
  induction m with
  | nil => simp [eraseKey]
  | cons e rest ih =>
    simp only [findOrNull] at h
    by_cases he : e.1 = key
    · simp [he] at h
    · simp only [eraseKey, he, if_false]
      rw [ih (by simpa [he] using h)]

theorem findOrNull_eraseKey_self {α β : Type} [DecidableEq α]
    (m : List (α × β)) (key : α) :
    findOrNull (eraseKey m key) key = none := by
  induction m with
  | nil => simp [eraseKey, findOrNull]
  | cons e rest ih =>
    by_cases he : e.1 = key
    · simp [eraseKey, he, ih]
    · simp [eraseKey, findOrNull, he, ih]

theorem filter_ne_of_not_mem (l : List String) (a : String) (h : a ∉ l) :
    l.filter (fun e => decide (e ≠ a)) = l := by
  induction l with
  | nil => simp
  | cons x rest ih =>
    simp only [List.mem_cons, not_or] at h
    have hx : x ≠ a := fun hxa => h.1 hxa.symm
    rw [List.filter_cons, if_pos (decide_eq_true hx), ih h.2]

theorem foldl_incrementalReportStep (tablet_map : List (String × TabletPeer))
    (dirty : List (String × Nat)) (r : TabletReportPB) :
    dirty.foldl (incrementalReportStep tablet_map) r =
      { r with
          updated_tablets := r.updated_tablets ++ updatedOf tablet_map dirty
          removed_tablet_ids := r.removed_tablet_ids ++ removedOf tablet_map dirty } := by
  induction dirty generalizing r with
  | nil => simp [updatedOf, removedOf]
  | cons e rest ih =>
    rw [List.foldl_cons, ih]
    rcases h : findOrNull tablet_map e.1 with _ | peer <;>
      simp [incrementalReportStep, updatedOf, removedOf, h, List.filterMap_cons]

theorem foldl_fullReportStep (entries : List (String × TabletPeer))
    (r : TabletReportPB) :
    entries.foldl fullReportStep r =
      { r with
          updated_tablets :=
            r.updated_tablets ++ entries.map (fun e => createReportedTabletPB e.1 e.2) } := by
  induction entries generalizing r with
  | nil => simp
  | cons e rest ih =>
    rw [List.foldl_cons, ih]
    simp [fullReportStep]

theorem mentions_updated_or_removed (tablet_map : List (String × TabletPeer))
    (dirty : List (String × Nat)) (tablet_id : String) :
    (tablet_id ∈ (updatedOf tablet_map dirty).map ReportedTabletPB.tablet_id ∨
        tablet_id ∈ removedOf tablet_map dirty) ↔
      tablet_id ∈ dirty.map Prod.fst := by
  induction dirty with
  | nil => simp [updatedOf, removedOf]
  | cons e rest ih =>
    rcases hf : findOrNull tablet_map e.1 with _ | peer
    · have hu : updatedOf tablet_map (e :: rest) = updatedOf tablet_map rest := by
        simp [updatedOf, List.filterMap_cons, hf]
      have hr : removedOf tablet_map (e :: rest) = e.1 :: removedOf tablet_map rest := by
        simp [removedOf, List.filterMap_cons, hf]
      rw [hu, hr]
      simp only [List.map_cons, List.mem_cons]
      rw [← ih]
      tauto
    · have hu : updatedOf tablet_map (e :: rest) =
          createReportedTabletPB e.1 peer :: updatedOf tablet_map rest := by
        simp [updatedOf, List.filterMap_cons, hf]
      have hr : removedOf tablet_map (e :: rest) = removedOf tablet_map rest := by
        simp [removedOf, List.filterMap_cons, hf]
      rw [hu, hr]
      simp only [List.map_cons, List.mem_cons, createReportedTabletPB]
      rw [← ih]
      tauto

theorem reportMentions_incremental_iff (st : TSTabletManager) (tablet_id : String) :
    reportMentions (generateIncrementalTabletReport st).1 tablet_id ↔
      tablet_id ∈ st.dirty_tablets.map Prod.fst := by
  have hrep : (generateIncrementalTabletReport st).1 =
      st.dirty_tablets.foldl (incrementalReportStep st.tablet_map)
        { sequence_number := st.next_report_seq
          is_incremental := true
          updated_tablets := []
          removed_tablet_ids := [] } := rfl
  rw [reportMentions, hrep, foldl_incrementalReportStep]
  simp only [List.nil_append]
  exact mentions_updated_or_removed st.tablet_map st.dirty_tablets tablet_id

theorem mem_keys_markDirtyUnlocked (st : TSTabletManager) (p : TabletPeer)
    (tablet_id : String) :
    tablet_id ∈ (markDirtyUnlocked st p).dirty_tablets.map Prod.fst ↔
      tablet_id ∈ st.dirty_tablets.map Prod.fst ∨ tablet_id = p.tablet_id := by
  unfold markDirtyUnlocked
  rcases hf : findOrNull st.dirty_tablets p.tablet_id with _ | c
  · simp
  · have hkeys : (st.dirty_tablets.map
        (fun e => if e.1 = p.tablet_id then (e.1, st.next_report_seq) else e)).map Prod.fst =
          st.dirty_tablets.map Prod.fst := by
      rw [List.map_map]
      apply List.map_congr_left
      intro e _
      by_cases h : e.1 = p.tablet_id <;> simp [h]
    have hpid : p.tablet_id ∈ st.dirty_tablets.map Prod.fst :=
      (findOrNull_isSome_iff _ _).mp (by rw [hf]; rfl)
    simp only [hkeys]
    constructor
    · exact Or.inl
    · rintro (h | rfl)
      · exact h
      · exact hpid

theorem mem_keys_markDirtyAll (st : TSTabletManager) (peers : List TabletPeer)
    (tablet_id : String) :
    tablet_id ∈ (markDirtyAll st peers).dirty_tablets.map Prod.fst ↔
      tablet_id ∈ st.dirty_tablets.map Prod.fst ∨
        tablet_id ∈ peers.map TabletPeer.tablet_id := by
  induction peers generalizing st with
  | nil => simp [markDirtyAll]
  | cons p rest ih =>
    have hstep : markDirtyAll st (p :: rest) = markDirtyAll (markDirtyUnlocked st p) rest := rfl
    rw [hstep, ih, mem_keys_markDirtyUnlocked]
    simp only [List.map_cons, List.mem_cons]
    tauto

/- ------------------------------------------------------------------ -/
/- Claim theorems                                                     -/
/- ------------------------------------------------------------------ -/

/-- Claim C1: `GenerateIncrementalTabletReport` assigns the report the
current `next_report_seq` value and increments the counter, sets
`is_incremental = true`, and for every entry of the dirty map emits a
`ReportedTablet` record when the tablet identifier is present in the
tablet map and adds the identifier to the removed list when it is absent;
the dirty map (and the rest of the manager state) is left unchanged. -/
theorem generateIncrementalTabletReport_spec (st : TSTabletManager) :
    (generateIncrementalTabletReport st).1.sequence_number = st.next_report_seq ∧
    (generateIncrementalTabletReport st).2.next_report_seq = st.next_report_seq + 1 ∧
    (generateIncrementalTabletReport st).1.is_incremental = true ∧
    (generateIncrementalTabletReport st).1.updated_tablets =
      updatedOf st.tablet_map st.dirty_tablets ∧
    (generateIncrementalTabletReport st).1.removed_tablet_ids =
      removedOf st.tablet_map st.dirty_tablets ∧
    (∀ e ∈ st.dirty_tablets, ∀ peer, findOrNull st.tablet_map e.1 = some peer →
      createReportedTabletPB e.1 peer ∈
        (generateIncrementalTabletReport st).1.updated_tablets) ∧
    (∀ e ∈ st.dirty_tablets, findOrNull st.tablet_map e.1 = none →
      e.1 ∈ (generateIncrementalTabletReport st).1.removed_tablet_ids) ∧
    (generateIncrementalTabletReport st).2.dirty_tablets = st.dirty_tablets ∧
    (generateIncrementalTabletReport st).2.tablet_map = st.tablet_map ∧
    (generateIncrementalTabletReport st).2.creates_in_progress = st.creates_in_progress ∧
    (generateIncrementalTabletReport st).2.state = st.state := by
  have hrep : (generateIncrementalTabletReport st).1 =
      { sequence_number := st.next_report_seq
        is_incremental := true
        updated_tablets := updatedOf st.tablet_map st.dirty_tablets
        removed_tablet_ids := removedOf st.tablet_map st.dirty_tablets } := by
    show st.dirty_tablets.foldl (incrementalReportStep st.tablet_map) _ = _
    rw [foldl_incrementalReportStep]
    rfl
  refine ⟨by rw [hrep], rfl, by rw [hrep], by rw [hrep], by rw [hrep], ?_, ?_,
    rfl, rfl, rfl, rfl⟩
  · intro e he peer hf
    rw [hrep]
    simp only [updatedOf, List.mem_filterMap]
    exact ⟨e, he, by simp [hf]⟩
  · intro e he hf
    rw [hrep]
    simp only [removedOf, List.mem_filterMap]
    exact ⟨e, he, by simp [hf]⟩

/-- Claim C1 witness: the theorem applied to a concrete manager state. -/
theorem generateIncrementalTabletReport_spec_witness :
    ((generateIncrementalTabletReport
        { tablet_map := [("t1", newTabletPeer "t1")]
          creates_in_progress := []
          dirty_tablets := [("t1", 0), ("t2", 0)]
          next_report_seq := 1
          state := TSTabletManagerStatePB.MANAGER_RUNNING }).1.sequence_number = 1) ∧
    ((generateIncrementalTabletReport
        { tablet_map := [("t1", newTabletPeer "t1")]
          creates_in_progress := []
          dirty_tablets := [("t1", 0), ("t2", 0)]
          next_report_seq := 1
          state := TSTabletManagerStatePB.MANAGER_RUNNING }).2.next_report_seq = 2) := by
  have h := generateIncrementalTabletReport_spec
    { tablet_map := [("t1", newTabletPeer "t1")]
      creates_in_progress := []
      dirty_tablets := [("t1", 0), ("t2", 0)]
      next_report_seq := 1
      state := TSTabletManagerStatePB.MANAGER_RUNNING }
  exact ⟨h.1, h.2.1⟩

/-- Claim C2: `MarkTabletReportAcknowledged` requires
`acked_seq < next_report_seq` (the `CHECK_LT` aborts otherwise, modelled
by `none`); afterwards the dirty map contains exactly the entries whose
`change_seq` was strictly greater than the acknowledged sequence, and no
other manager state is touched. -/
theorem markTabletReportAcknowledged_spec (st : TSTabletManager) (acked_seq : Nat) :
    (st.next_report_seq ≤ acked_seq →
      markTabletReportAcknowledged st acked_seq = none) ∧
    (acked_seq < st.next_report_seq →
      ∃ st', markTabletReportAcknowledged st acked_seq = some st' ∧
        st'.dirty_tablets =
          st.dirty_tablets.filter (fun e => decide (acked_seq < e.2)) ∧
        (∀ e, e ∈ st'.dirty_tablets ↔ e ∈ st.dirty_tablets ∧ acked_seq < e.2) ∧
        st'.tablet_map = st.tablet_map ∧
        st'.creates_in_progress = st.creates_in_progress ∧
        st'.next_report_seq = st.next_report_seq ∧
        st'.state = st.state) := by
  constructor
  · intro h
    unfold markTabletReportAcknowledged
    rw [if_neg (by omega)]
  · intro h
    refine ⟨{ st with dirty_tablets :=
        st.dirty_tablets.filter (fun e => decide (acked_seq < e.2)) },
      ?_, rfl, ?_, rfl, rfl, rfl, rfl⟩
    · unfold markTabletReportAcknowledged
      rw [if_pos h]
    · intro e
      simp [List.mem_filter]

/-- Claim C2 witness: acknowledging sequence 1 with `next_report_seq = 3`
keeps exactly the dirty entries with `change_seq > 1`. -/
theorem markTabletReportAcknowledged_spec_witness :
    markTabletReportAcknowledged
      { tablet_map := []
        creates_in_progress := []
        dirty_tablets := [("a", 0), ("b", 2), ("c", 1)]
        next_report_seq := 3
        state := TSTabletManagerStatePB.MANAGER_RUNNING } 1 =
      some { tablet_map := []
             creates_in_progress := []
             dirty_tablets := [("b", 2)]
             next_report_seq := 3
             state := TSTabletManagerStatePB.MANAGER_RUNNING } := by
  have h := (markTabletReportAcknowledged_spec
    { tablet_map := []
      creates_in_progress := []
      dirty_tablets := [("a", 0), ("b", 2), ("c", 1)]
      next_report_seq := 3
      state := TSTabletManagerStatePB.MANAGER_RUNNING } 1).2 (by decide)
  rcases h with ⟨st', heq, hdirty, _⟩
  rw [heq]
  congr 1
  have : st'.dirty_tablets = [("b", 2)] := by
    rw [hdirty]
    decide
  rcases st' with ⟨tm, cip, dt, seq, s⟩
  simp only at this
  simp_all

/-- Claim C7: `GenerateFullTabletReport` assigns the next report sequence
number, sets `is_incremental = false`, emits one `ReportedTablet` per
tablet-map entry, and leaves the dirty map empty, so an incremental
report generated after any further dirty markings mentions exactly the
tablets marked dirty after the full report. -/
theorem generateFullTabletReport_spec (st : TSTabletManager)
    (marked : List TabletPeer) :
    (generateFullTabletReport st).1.sequence_number = st.next_report_seq ∧
    (generateFullTabletReport st).2.next_report_seq = st.next_report_seq + 1 ∧
    (generateFullTabletReport st).1.is_incremental = false ∧
    (generateFullTabletReport st).1.updated_tablets =
      st.tablet_map.map (fun e => createReportedTabletPB e.1 e.2) ∧
    (generateFullTabletReport st).1.removed_tablet_ids = [] ∧
    (generateFullTabletReport st).2.dirty_tablets = [] ∧
    (∀ tablet_id,
      reportMentions
        (generateIncrementalTabletReport
          (markDirtyAll (generateFullTabletReport st).2 marked)).1 tablet_id ↔
        tablet_id ∈ marked.map TabletPeer.tablet_id) := by
  have hrep : (generateFullTabletReport st).1 =
      { sequence_number := st.next_report_seq
        is_incremental := false
        updated_tablets := st.tablet_map.map (fun e => createReportedTabletPB e.1 e.2)
        removed_tablet_ids := [] } := by
    show st.tablet_map.foldl fullReportStep _ = _
    rw [foldl_fullReportStep]
    rfl
  refine ⟨by rw [hrep], rfl, by rw [hrep], by rw [hrep], by rw [hrep], rfl, ?_⟩
  intro tablet_id
  rw [reportMentions_incremental_iff, mem_keys_markDirtyAll]
  rw [show (generateFullTabletReport st).2.dirty_tablets = [] from rfl]
  simp

/-- Claim C7 witness: the theorem applied to a concrete state and one
subsequent dirty marking. -/
theorem generateFullTabletReport_spec_witness :
    reportMentions
      (generateIncrementalTabletReport
        (markDirtyAll
          (generateFullTabletReport
            { tablet_map := [("t1", newTabletPeer "t1")]
              creates_in_progress := []
              dirty_tablets := [("t1", 0)]
              next_report_seq := 1
              state := TSTabletManagerStatePB.MANAGER_RUNNING }).2
          [newTabletPeer "t2"])).1 "t2" ↔
      "t2" ∈ [newTabletPeer "t2"].map TabletPeer.tablet_id := by
  have h := generateFullTabletReport_spec
    { tablet_map := [("t1", newTabletPeer "t1")]
      creates_in_progress := []
      dirty_tablets := [("t1", 0)]
      next_report_seq := 1
      state := TSTabletManagerStatePB.MANAGER_RUNNING }
    [newTabletPeer "t2"]
  exact h.2.2.2.2.2.2 "t2"

/-- Claim C6: `DeleteTablet` fails with `ServiceUnavailable` exactly when
the peer's `Shutdown` reports a prior state of `QUIESCING` or `SHUTDOWN`;
in every other case it removes the tablet's entry from the tablet map and
returns success.  The hypothesis is the `CHECK_EQ(1, tablet_map_.erase(..))`
precondition that the tablet is registered. -/
theorem deleteTablet_spec (st : TSTabletManager) (p : TabletPeer)
    (hin : (findOrNull st.tablet_map p.tablet_id).isSome = true) :
    ((p.state = TabletStatePB.QUIESCING ∨ p.state = TabletStatePB.SHUTDOWN) →
      deleteTablet st p =
        some (Status.serviceUnavailable, st, { p with state := TabletStatePB.SHUTDOWN })) ∧
    (¬(p.state = TabletStatePB.QUIESCING ∨ p.state = TabletStatePB.SHUTDOWN) →
      deleteTablet st p =
        some (Status.ok,
          { st with tablet_map := eraseKey st.tablet_map p.tablet_id },
          { p with state := TabletStatePB.SHUTDOWN }) ∧
      findOrNull (eraseKey st.tablet_map p.tablet_id) p.tablet_id = none) := by
  constructor
  · intro h
    simp only [deleteTablet, TabletPeer.shutdown]
    rw [if_pos h]
  · intro h
    refine ⟨?_, findOrNull_eraseKey_self _ _⟩
    simp only [deleteTablet, TabletPeer.shutdown]
    rw [if_neg h]
    rcases hf : findOrNull st.tablet_map p.tablet_id with _ | v
    · rw [hf] at hin
      simp at hin
    · rfl

/-- Claim C6 witness: deleting a running registered tablet succeeds and
empties the singleton map; deleting it again at state `SHUTDOWN` fails. -/
theorem deleteTablet_spec_witness :
    deleteTablet
      { tablet_map := [("t1", { newTabletPeer "t1" with state := TabletStatePB.RUNNING })]
        creates_in_progress := []
        dirty_tablets := []
        next_report_seq := 0
        state := TSTabletManagerStatePB.MANAGER_RUNNING }
      { newTabletPeer "t1" with state := TabletStatePB.RUNNING } =
      some (Status.ok,
        { tablet_map := []
          creates_in_progress := []
          dirty_tablets := []
          next_report_seq := 0
          state := TSTabletManagerStatePB.MANAGER_RUNNING },
        { newTabletPeer "t1" with state := TabletStatePB.SHUTDOWN }) := by
  have h := (deleteTablet_spec
    { tablet_map := [("t1", { newTabletPeer "t1" with state := TabletStatePB.RUNNING })]
      creates_in_progress := []
      dirty_tablets := []
      next_report_seq := 0
      state := TSTabletManagerStatePB.MANAGER_RUNNING }
    { newTabletPeer "t1" with state := TabletStatePB.RUNNING }
    (by decide)).2 (by decide)
  exact h.1

/-- Claim C10: `DeleteTablet` invokes the peer's `Shutdown` before
examining the returned prior state, so even when it fails with
`ServiceUnavailable` the returned peer is already in state `SHUTDOWN`
while the manager state — tablet map included — is returned untouched. -/
theorem deleteTablet_shutdown_first (st : TSTabletManager) (p : TabletPeer)
    (h : p.state = TabletStatePB.QUIESCING ∨ p.state = TabletStatePB.SHUTDOWN) :
    ∃ res, deleteTablet st p = some res ∧
      res.1 = Status.serviceUnavailable ∧
      res.2.1 = st ∧
      res.2.2.state = TabletStatePB.SHUTDOWN := by
  refine ⟨(Status.serviceUnavailable, st, { p with state := TabletStatePB.SHUTDOWN }),
    ?_, rfl, rfl, rfl⟩
  simp only [deleteTablet, TabletPeer.shutdown]
  rw [if_pos h]

/-- Claim C10 witness: deleting a quiescing tablet fails but still leaves
the returned peer shut down, with the tablet map intact. -/
theorem deleteTablet_shutdown_first_witness :
    ∃ res, deleteTablet
      { tablet_map := [("t2", { newTabletPeer "t2" with state := TabletStatePB.QUIESCING })]
        creates_in_progress := []
        dirty_tablets := []
        next_report_seq := 0
        state := TSTabletManagerStatePB.MANAGER_RUNNING }
      { newTabletPeer "t2" with state := TabletStatePB.QUIESCING } = some res ∧
      res.1 = Status.serviceUnavailable ∧
      res.2.1 =
        { tablet_map := [("t2", { newTabletPeer "t2" with state := TabletStatePB.QUIESCING })]
          creates_in_progress := []
          dirty_tablets := []
          next_report_seq := 0
          state := TSTabletManagerStatePB.MANAGER_RUNNING } ∧
      res.2.2.state = TabletStatePB.SHUTDOWN :=
  deleteTablet_shutdown_first
    { tablet_map := [("t2", { newTabletPeer "t2" with state := TabletStatePB.QUIESCING })]
      creates_in_progress := []
      dirty_tablets := []
      next_report_seq := 0
      state := TSTabletManagerStatePB.MANAGER_RUNNING }
    { newTabletPeer "t2" with state := TabletStatePB.QUIESCING }
    (Or.inl rfl)

/-- Claim C5: `CreateNewTablet` returns `AlreadyPresent`, leaving the
manager state unchanged, whenever the identifier is already in the tablet
map or the creates-in-progress set; otherwise it inserts the identifier
into the creates-in-progress set and that entry is removed on every
subsequent exit path — metadata-creation failure, master-block persist
failure, submit failure, or success — leaving the set as it was before
the call.  The hypotheses are the function's `CHECK`s: the manager is
running and a local quorum names only this server as leader. -/
theorem createNewTablet_spec (st : TSTabletManager) (serverUuid tablet_id : String)
    (quorum : QuorumPB) (o : CreateOracle)
    (hrun : st.state = TSTabletManagerStatePB.MANAGER_RUNNING)
    (hq : quorum.isLocal = false ∨ localQuorumChecksPass serverUuid quorum = true) :
    (((findOrNull st.tablet_map tablet_id).isSome = true ∨
        tablet_id ∈ st.creates_in_progress) →
      createNewTablet st serverUuid tablet_id quorum o =
        some (Status.alreadyPresent, st)) ∧
    ((findOrNull st.tablet_map tablet_id = none ∧
        tablet_id ∉ st.creates_in_progress) →
      ∃ r st', createNewTablet st serverUuid tablet_id quorum o = some (r, st') ∧
        st'.creates_in_progress = st.creates_in_progress ∧
        tablet_id ∉ st'.creates_in_progress) := by
  have hg1 : ¬(st.state ≠ TSTabletManagerStatePB.MANAGER_RUNNING) := by simp [hrun]
  have hg2 : ¬((quorum.isLocal && !(localQuorumChecksPass serverUuid quorum)) = true) := by
    rcases hq with h | h <;> simp [h]
  constructor
  · intro hpresent
    unfold createNewTablet
    rw [if_neg hg1, if_neg hg2]
    by_cases hl : (findOrNull st.tablet_map tablet_id).isSome = true
    · rw [if_pos hl]
    · rw [if_neg hl]
      have hmem : tablet_id ∈ st.creates_in_progress := by
        rcases hpresent with h | h
        · exact absurd h hl
        · exact h
      rw [if_pos hmem]
  · rintro ⟨h1, h2⟩
    have hfil : (tablet_id :: st.creates_in_progress).filter
        (fun e => decide (e ≠ tablet_id)) = st.creates_in_progress := by
      rw [List.filter_cons, if_neg (by simp)]
      exact filter_ne_of_not_mem _ _ h2
    have hnotmem : tablet_id ∉ (tablet_id :: st.creates_in_progress).filter
        (fun e => decide (e ≠ tablet_id)) := by
      rw [hfil]
      exact h2
    unfold createNewTablet createsInProgressErase
    rw [if_neg hg1, if_neg hg2, if_neg (by simp [h1]), if_neg h2]
    by_cases hc : (!o.createNewOk) = true
    · rw [if_pos hc]
      exact ⟨Status.upstreamError, _, rfl, hfil, hnotmem⟩
    · rw [if_neg hc]
      by_cases hp : (!o.persistOk) = true
      · rw [if_pos hp]
        exact ⟨Status.upstreamError, _, rfl, hfil, hnotmem⟩
      · rw [if_neg hp, if_neg (by simp [h1])]
        by_cases hs : (!o.submitOk) = true
        · rw [if_pos hs]
          exact ⟨Status.upstreamError, _, rfl, hfil, hnotmem⟩
        · rw [if_neg hs]
          exact ⟨Status.ok, _, rfl, hfil, hnotmem⟩

/-- Claim C5 witness: a fresh identifier is created and the
creates-in-progress set is empty again afterwards; the same call on a
state already holding the identifier returns `AlreadyPresent`. -/
theorem createNewTablet_spec_witness :
    (∃ r st', createNewTablet
        { tablet_map := []
          creates_in_progress := []
          dirty_tablets := []
          next_report_seq := 0
          state := TSTabletManagerStatePB.MANAGER_RUNNING }
        "uuid-self" "t1"
        { isLocal := false, peers := [], seqno := 0 }
        { createNewOk := true, persistOk := true, submitOk := true } = some (r, st') ∧
      st'.creates_in_progress = [] ∧
      "t1" ∉ st'.creates_in_progress) := by
  have h := (createNewTablet_spec
    { tablet_map := []
      creates_in_progress := []
      dirty_tablets := []
      next_report_seq := 0
      state := TSTabletManagerStatePB.MANAGER_RUNNING }
    "uuid-self" "t1"
    { isLocal := false, peers := [], seqno := 0 }
    { createNewOk := true, persistOk := true, submitOk := true }
    rfl (Or.inl rfl)).2 ⟨rfl, by simp⟩
  exact h

/-- Claim C9: the cross-flag startup validator rejects the configuration
exactly when the configured per-tablet transaction memory limit is
non-negative and, converted to bytes, strictly less than
`rpc_max_message_size`; a configured limit of −1 always passes. -/
theorem validateTransactionMemoryAndRpcSize_spec
    (tablet_transaction_memory_limit_mb rpc_max_message_size : Int) :
    (ValidateTransactionMemoryAndRpcSize tablet_transaction_memory_limit_mb
        rpc_max_message_size = false ↔
      0 ≤ tablet_transaction_memory_limit_mb ∧
        tablet_transaction_memory_limit_mb * 1024 * 1024 < rpc_max_message_size) ∧
    ValidateTransactionMemoryAndRpcSize (-1) rpc_max_message_size = true := by
  constructor
  · unfold ValidateTransactionMemoryAndRpcSize
    by_cases h : (tablet_transaction_memory_limit_mb * 1024 * 1024 ≥ 0 ∧
        tablet_transaction_memory_limit_mb * 1024 * 1024 < rpc_max_message_size)
    · rw [if_pos h]
      have h1 := h.1
      have h2 := h.2
      constructor
      · intro _
        exact ⟨by omega, h2⟩
      · intro _
        rfl
    · rw [if_neg h]
      constructor
      · intro hcon
        cases hcon
      · rintro ⟨ha, hb⟩
        exact absurd ⟨by omega, hb⟩ h
  · unfold ValidateTransactionMemoryAndRpcSize
    rw [if_neg]
    rintro ⟨ha, _⟩
    omega

/-- Claim C9 witness: a zero-MB limit under a positive RPC maximum is
rejected, and the −1 sentinel passes. -/
theorem validateTransactionMemoryAndRpcSize_spec_witness :
    ValidateTransactionMemoryAndRpcSize 0 1 = false ∧
    ValidateTransactionMemoryAndRpcSize (-1) 1 = true :=
  ⟨(validateTransactionMemoryAndRpcSize_spec 0 1).1.mpr ⟨by norm_num, by norm_num⟩,
   (validateTransactionMemoryAndRpcSize_spec (-1) 1).2⟩

theorem decrementCounters_incrementCounters (metrics : Option TrackerMetrics)
    (ty : TxType) :
    decrementCounters (incrementCounters metrics ty) ty = metrics := by
  cases metrics <;> cases ty <;> rfl

theorem memTrackerNode_add_sub_cancel (n : MemTrackerNode) (b : Nat) :
    ({ consumption := n.consumption + b - b, limit := n.limit } : MemTrackerNode) = n := by
  cases n
  simp

theorem tryConsume_release (mt : MemTracker) (b : Nat)
    (h : (mt.tryConsume b).1 = true) :
    ((mt.tryConsume b).2).release b = mt := by
  unfold MemTracker.tryConsume at h ⊢
  by_cases hc : (mt.self.canConsume b &&
      mt.ancestors.all (fun n => n.canConsume b)) = true
  · rw [if_pos hc]
    unfold MemTracker.release
    have hanc : ((mt.ancestors.map
        (fun n => ({ n with consumption := n.consumption + b } : MemTrackerNode))).map
          (fun n => ({ n with consumption := n.consumption - b } : MemTrackerNode))) =
        mt.ancestors := by
      rw [List.map_map]
      have hfun : ((fun n : MemTrackerNode => { n with consumption := n.consumption - b }) ∘
          fun n : MemTrackerNode => { n with consumption := n.consumption + b }) =
            fun n : MemTrackerNode => n := by
        funext n
        exact memTrackerNode_add_sub_cancel n b
      rw [hfun]
      simp
    simp only [hanc]
    rw [memTrackerNode_add_sub_cancel mt.self b]
  · rw [if_neg hc] at h
    simp at h

theorem eraseKey_cons_self {α β : Type} [DecidableEq α] (k : α) (v : β)
    (m : List (α × β)) (h : findOrNull m k = none) :
    eraseKey ((k, v) :: m) k = m := by
  simp only [eraseKey, if_pos]
  exact eraseKey_of_not_found m k h

/-- Claim C4: for every transaction driver, a successful `Add` followed
by a `Release` of the same handle restores the tracker exactly — the
pending map, the in-flight gauges and the memory-tracker consumption all
return to their pre-pair values (the released amount is the footprint
cached at admission), and `Release` completes without any error (`some`:
neither the `FindOrDie` nor the erase-count check can fire). -/
theorem add_release_roundtrip (t : TransactionTracker) (d : TransactionDriver)
    (t' : TransactionTracker) (hadd : t.add d = some (Status.ok, t')) :
    t'.release d = some t := by
  obtain ⟨pending, metrics, memt⟩ := t
  cases memt with
  | none =>
    simp only [TransactionTracker.add] at hadd
    rcases hf : findOrNull pending d.id with _ | fp
    · rw [hf] at hadd
      simp only [Option.isSome_none, Bool.false_eq_true, if_false, Option.some.injEq,
        Prod.mk.injEq, true_and] at hadd
      obtain ⟨-, rfl⟩ := hadd
      simp [TransactionTracker.release, decrementCounters_incrementCounters,
        findOrNull, eraseKey, eraseKey_of_not_found pending d.id hf]
    · rw [hf] at hadd
      simp at hadd
  | some mt =>
    simp only [TransactionTracker.add] at hadd
    by_cases htc : (mt.tryConsume d.reqSpaceUsed).1 = true
    · rw [if_pos htc] at hadd
      rcases hf : findOrNull pending d.id with _ | fp
      · rw [hf] at hadd
        simp only [Option.isSome_none, Bool.false_eq_true, if_false, Option.some.injEq,
          Prod.mk.injEq, true_and] at hadd
        obtain ⟨-, rfl⟩ := hadd
        simp [TransactionTracker.release, decrementCounters_incrementCounters,
          findOrNull, eraseKey, eraseKey_of_not_found pending d.id hf,
          tryConsume_release mt d.reqSpaceUsed htc]
      · rw [hf] at hadd
        simp at hadd
    · rw [if_neg htc] at hadd
      simp at hadd

/-- Claim C4 witness: a concrete admit/release pair on a tracker with a
100-byte budget. -/
theorem add_release_roundtrip_witness :
    TransactionTracker.release
      { pending_txns := [(1, 40)]
        metrics := some
          { all_transactions_inflight := 1
            write_transactions_inflight := 1
            alter_schema_transactions_inflight := 0
            transaction_memory_pressure_rejections := 0
            transaction_memory_limit_rejections := 0 }
        mem_tracker := some { self := { consumption := 40, limit := some 100 }, ancestors := [] } }
      { id := 1, reqSpaceUsed := 40, txType := TxType.WRITE_TXN } =
    some
      { pending_txns := []
        metrics := some
          { all_transactions_inflight := 0
            write_transactions_inflight := 0
            alter_schema_transactions_inflight := 0
            transaction_memory_pressure_rejections := 0
            transaction_memory_limit_rejections := 0 }
        mem_tracker := some { self := { consumption := 0, limit := some 100 }, ancestors := [] } } :=
  add_release_roundtrip
    { pending_txns := []
      metrics := some
        { all_transactions_inflight := 0
          write_transactions_inflight := 0
          alter_schema_transactions_inflight := 0
          transaction_memory_pressure_rejections := 0
          transaction_memory_limit_rejections := 0 }
      mem_tracker := some { self := { consumption := 0, limit := some 100 }, ancestors := [] } }
    { id := 1, reqSpaceUsed := 40, txType := TxType.WRITE_TXN }
    { pending_txns := [(1, 40)]
      metrics := some
        { all_transactions_inflight := 1
          write_transactions_inflight := 1
          alter_schema_transactions_inflight := 0
          transaction_memory_pressure_rejections := 0
          transaction_memory_limit_rejections := 0 }
      mem_tracker := some { self := { consumption := 40, limit := some 100 }, ancestors := [] } }
    (by decide)

theorem incrementCounters_rejections (metrics : Option TrackerMetrics)
    (ty : TxType) (m' : TrackerMetrics)
    (h : incrementCounters metrics ty = some m') :
    ∃ m, metrics = some m ∧
      m'.transaction_memory_pressure_rejections =
        m.transaction_memory_pressure_rejections ∧
      m'.transaction_memory_limit_rejections =
        m.transaction_memory_limit_rejections := by
  cases metrics with
  | none => simp [incrementCounters] at h
  | some m =>
    cases ty <;> simp [incrementCounters] at h <;>
      exact ⟨m, rfl, by rw [← h], by rw [← h]⟩

theorem add_preserves_rejectionCountersLe (t : TransactionTracker)
    (d : TransactionDriver) (s : Status) (t' : TransactionTracker)
    (hadd : t.add d = some (s, t')) (hle : rejectionCountersLe t) :
    rejectionCountersLe t' := by
  obtain ⟨pending, metrics, memt⟩ := t
  cases memt with
  | none =>
    simp only [TransactionTracker.add] at hadd
    rcases hf : findOrNull pending d.id with _ | fp
    · rw [hf] at hadd
      simp only [Option.isSome_none, Bool.false_eq_true, if_false, Option.some.injEq,
        Prod.mk.injEq] at hadd
      obtain ⟨-, rfl⟩ := hadd
      intro m' hm'
      obtain ⟨m, hm, hp, hl⟩ := incrementCounters_rejections metrics d.txType m' hm'
      rw [hp, hl]
      exact hle m hm
    · rw [hf] at hadd
      simp at hadd
  | some mt =>
    simp only [TransactionTracker.add] at hadd
    by_cases htc : (mt.tryConsume d.reqSpaceUsed).1 = true
    · rw [if_pos htc] at hadd
      rcases hf : findOrNull pending d.id with _ | fp
      · rw [hf] at hadd
        simp only [Option.isSome_none, Bool.false_eq_true, if_false, Option.some.injEq,
          Prod.mk.injEq] at hadd
        obtain ⟨-, rfl⟩ := hadd
        intro m' hm'
        obtain ⟨m, hm, hp, hl⟩ := incrementCounters_rejections metrics d.txType m' hm'
        rw [hp, hl]
        exact hle m hm
      · rw [hf] at hadd
        simp at hadd
    · rw [if_neg htc] at hadd
      simp only [Option.some.injEq, Prod.mk.injEq] at hadd
      obtain ⟨-, rfl⟩ := hadd
      cases metrics with
      | none =>
        intro m' hm'
        simp at hm'
      | some m =>
        intro m' hm'
        have hlem := hle m rfl
        have hm2 : (if mt.canConsumeNoAncestors d.reqSpaceUsed = true then
            some ({ m with transaction_memory_pressure_rejections :=
              m.transaction_memory_pressure_rejections + 1 } : TrackerMetrics)
          else
            some ({ m with
              transaction_memory_pressure_rejections :=
                m.transaction_memory_pressure_rejections + 1
              transaction_memory_limit_rejections :=
                m.transaction_memory_limit_rejections + 1 } : TrackerMetrics)) =
            some m' := hm'
        by_cases hcan : mt.canConsumeNoAncestors d.reqSpaceUsed = true
        · rw [if_pos hcan, Option.some.injEq] at hm2
          subst hm2
          show m.transaction_memory_limit_rejections ≤
            m.transaction_memory_pressure_rejections + 1
          omega
        · rw [if_neg hcan, Option.some.injEq] at hm2
          subst hm2
          show m.transaction_memory_limit_rejections + 1 ≤
            m.transaction_memory_pressure_rejections + 1
          omega

/-- Claim C3: on every admission the memory tracker rejects, `Add` bumps
`transaction_memory_pressure_rejections` by one, and bumps
`transaction_memory_limit_rejections` in addition exactly when this
tracker's own limit (ignoring ancestors) cannot absorb the footprint;
nothing else in the tracker changes.  Consequently
`transaction_memory_limit_rejections ≤
transaction_memory_pressure_rejections` is preserved across any sequence
of `Add` calls. -/
theorem add_rejection_counters_spec (t : TransactionTracker) (d : TransactionDriver)
    (mt : MemTracker) (m : TrackerMetrics)
    (hmt : t.mem_tracker = some mt) (hm : t.metrics = some m)
    (hrej : (mt.tryConsume d.reqSpaceUsed).1 = false) :
    (∃ m', t.add d =
        some (Status.serviceUnavailable, { t with metrics := some m' }) ∧
      m'.transaction_memory_pressure_rejections =
        m.transaction_memory_pressure_rejections + 1 ∧
      m'.transaction_memory_limit_rejections =
        (if mt.canConsumeNoAncestors d.reqSpaceUsed = true
         then m.transaction_memory_limit_rejections
         else m.transaction_memory_limit_rejections + 1)) ∧
    (∀ u ds u', rejectionCountersLe u →
      TransactionTracker.addAll u ds = some u' → rejectionCountersLe u') := by
  constructor
  · obtain ⟨pending, metrics, memt⟩ := t
    have hmt' : memt = some mt := hmt
    have hm' : metrics = some m := hm
    subst hmt'
    subst hm'
    by_cases hcan : mt.canConsumeNoAncestors d.reqSpaceUsed = true
    · refine ⟨{ m with transaction_memory_pressure_rejections :=
          m.transaction_memory_pressure_rejections + 1 }, ?_, rfl, by rw [if_pos hcan]⟩
      simp only [TransactionTracker.add]
      rw [if_neg (by simp [hrej])]
      rw [show (if mt.canConsumeNoAncestors d.reqSpaceUsed = true then
          some ({ m with transaction_memory_pressure_rejections :=
            m.transaction_memory_pressure_rejections + 1 } : TrackerMetrics)
        else
          some ({ m with
            transaction_memory_pressure_rejections :=
              m.transaction_memory_pressure_rejections + 1
            transaction_memory_limit_rejections :=
              m.transaction_memory_limit_rejections + 1 } : TrackerMetrics)) =
        some ({ m with transaction_memory_pressure_rejections :=
          m.transaction_memory_pressure_rejections + 1 } : TrackerMetrics)
        from if_pos hcan]
    · refine ⟨{ m with
          transaction_memory_pressure_rejections :=
            m.transaction_memory_pressure_rejections + 1
          transaction_memory_limit_rejections :=
            m.transaction_memory_limit_rejections + 1 }, ?_, rfl, by rw [if_neg hcan]⟩
      simp only [TransactionTracker.add]
      rw [if_neg (by simp [hrej])]
      rw [show (if mt.canConsumeNoAncestors d.reqSpaceUsed = true then
          some ({ m with transaction_memory_pressure_rejections :=
            m.transaction_memory_pressure_rejections + 1 } : TrackerMetrics)
        else
          some ({ m with
            transaction_memory_pressure_rejections :=
              m.transaction_memory_pressure_rejections + 1
            transaction_memory_limit_rejections :=
              m.transaction_memory_limit_rejections + 1 } : TrackerMetrics)) =
        some ({ m with
          transaction_memory_pressure_rejections :=
            m.transaction_memory_pressure_rejections + 1
          transaction_memory_limit_rejections :=
            m.transaction_memory_limit_rejections + 1 } : TrackerMetrics)
        from if_neg hcan]
  · intro u ds
    induction ds generalizing u with
    | nil =>
      intro u' hle h
      simp only [TransactionTracker.addAll, Option.some.injEq] at h
      exact h ▸ hle
    | cons d0 rest ih =>
      intro u' hle h
      simp only [TransactionTracker.addAll] at h
      rcases ha : u.add d0 with _ | p
      · rw [ha] at h
        simp at h
      · rw [ha] at h
        obtain ⟨s0, u0⟩ := p
        exact ih u0 u' (add_preserves_rejectionCountersLe u d0 s0 u0 ha hle) h

/-- Claim C3 witness: a 20-byte request against an empty tracker with a
10-byte own limit is rejected by the tracker's own limit, bumping both
counters. -/
theorem add_rejection_counters_spec_witness :
    ∃ m', TransactionTracker.add
        { pending_txns := []
          metrics := some
            { all_transactions_inflight := 0
              write_transactions_inflight := 0
              alter_schema_transactions_inflight := 0
              transaction_memory_pressure_rejections := 0
              transaction_memory_limit_rejections := 0 }
          mem_tracker := some { self := { consumption := 0, limit := some 10 }, ancestors := [] } }
        { id := 1, reqSpaceUsed := 20, txType := TxType.WRITE_TXN } =
      some (Status.serviceUnavailable,
        { pending_txns := []
          metrics := some m'
          mem_tracker := some { self := { consumption := 0, limit := some 10 }, ancestors := [] } }) ∧
      m'.transaction_memory_pressure_rejections = 0 + 1 ∧
      m'.transaction_memory_limit_rejections = 0 + 1 :=
  (add_rejection_counters_spec
    { pending_txns := []
      metrics := some
        { all_transactions_inflight := 0
          write_transactions_inflight := 0
          alter_schema_transactions_inflight := 0
          transaction_memory_pressure_rejections := 0
          transaction_memory_limit_rejections := 0 }
      mem_tracker := some { self := { consumption := 0, limit := some 10 }, ancestors := [] } }
    { id := 1, reqSpaceUsed := 20, txType := TxType.WRITE_TXN }
    { self := { consumption := 0, limit := some 10 }, ancestors := [] }
    { all_transactions_inflight := 0
      write_transactions_inflight := 0
      alter_schema_transactions_inflight := 0
      transaction_memory_pressure_rejections := 0
      transaction_memory_limit_rejections := 0 }
    rfl rfl (by decide)).1

theorem backoffFrom_shift (w : Nat) :
    ∀ n, backoffFrom (backoffStep w) n = backoffFrom w (n + 1) := by
  intro n
  induction n with
  | zero => rfl
  | succ k ih =>
    show backoffStep (backoffFrom (backoffStep w) k) = backoffStep (backoffFrom w (k + 1))
    rw [ih]

theorem waitAux_sleeps_char (timeout start_time : Nat) :
    ∀ (trace : List WaitObs) (w i v : Nat),
      ((waitForAllToFinishAux timeout start_time w trace).2)[i]? = some v →
      v = backoffFrom w (i + 1) := by
  intro trace
  induction trace with
  | nil =>
    intro w i v h
    simp [waitForAllToFinishAux] at h
  | cons obs rest ih =>
    intro w i v h
    simp only [waitForAllToFinishAux] at h
    by_cases h0 : obs.pending = 0
    · rw [if_pos h0] at h
      simp at h
    · rw [if_neg h0] at h
      by_cases ht : timeout < obs.now - start_time
      · rw [if_pos ht] at h
        simp at h
      · rw [if_neg ht] at h
        cases i with
        | zero =>
          simp only [List.getElem?_cons_zero, Option.some.injEq] at h
          rw [← h]
          rfl
        | succ j =>
          simp only [List.getElem?_cons_succ] at h
          rw [ih (backoffStep w) j v h, backoffFrom_shift]

theorem waitAux_timedOut_sound (timeout start_time : Nat) :
    ∀ (trace : List WaitObs) (w p e : Nat),
      (waitForAllToFinishAux timeout start_time w trace).1 =
        some (Status.timedOut p e) →
      ∃ obs ∈ trace, obs.pending = p ∧ p ≠ 0 ∧ e = obs.now - start_time ∧
        timeout < e := by
  intro trace
  induction trace with
  | nil =>
    intro w p e h
    simp [waitForAllToFinishAux] at h
  | cons obs rest ih =>
    intro w p e h
    simp only [waitForAllToFinishAux] at h
    by_cases h0 : obs.pending = 0
    · rw [if_pos h0] at h
      simp at h
    · rw [if_neg h0] at h
      by_cases ht : timeout < obs.now - start_time
      · rw [if_pos ht] at h
        simp only [Option.some.injEq, Status.timedOut.injEq] at h
        obtain ⟨rfl, rfl⟩ := h
        exact ⟨obs, List.mem_cons_self _ _, rfl, h0, rfl, ht⟩
      · rw [if_neg ht] at h
        obtain ⟨o, ho, hprops⟩ := ih (backoffStep w) p e h
        exact ⟨o, List.mem_cons_of_mem _ ho, hprops⟩

theorem waitAux_timedOut_trigger (timeout start_time : Nat) :
    ∀ (pre : List WaitObs) (obs : WaitObs) (post : List WaitObs) (w : Nat),
      (∀ o ∈ pre, o.pending ≠ 0 ∧ o.now - start_time ≤ timeout) →
      obs.pending ≠ 0 → timeout < obs.now - start_time →
      (waitForAllToFinishAux timeout start_time w (pre ++ obs :: post)).1 =
        some (Status.timedOut obs.pending (obs.now - start_time)) := by
  intro pre
  induction pre with
  | nil =>
    intro obs post w _ h0 ht
    simp only [List.nil_append, waitForAllToFinishAux]
    rw [if_neg h0, if_pos ht]
  | cons o rest ih =>
    intro obs post w hpre h0 ht
    have ho := hpre o (List.mem_cons_self _ _)
    simp only [List.cons_append, waitForAllToFinishAux]
    rw [if_neg ho.1, if_neg (Nat.not_lt.mpr ho.2)]
    exact ih obs post (backoffStep w)
      (fun x hx => hpre x (List.mem_cons_of_mem _ hx)) h0 ht

/-- Claim C8 counterexample: with one pending transaction observed at
time 0 and none at the next poll, the loop's single sleep lasts 312 µs —
`min(250·5/4, 1000000)` computed before the first sleep — so the claimed
initial wait of 250 µs never occurs. -/
theorem waitForAllToFinish_first_sleep_not_250 :
    (waitForAllToFinish 1000000 0
      [{ pending := 1, now := 0 }, { pending := 0, now := 500 }]).2 = [312] ∧
    (312 : Nat) ≠ 250 := by
  constructor
  · rfl
  · decide

/-- Claim C8 as amended: the drain loop's backoff variable is seeded with
250 µs and updated by `min(w·5/4, 1 s)` (integer division) before every
sleep — so the i-th sleep lasts `backoffFrom 250 (i+1)` µs (312, 390, …),
never exceeding 1 s — and when the caller-supplied timeout has elapsed at
a poll that still sees pending transactions, the loop returns timed-out
reporting that pending count and the elapsed time. -/
theorem waitForAllToFinish_spec (timeout start_time : Nat) (trace : List WaitObs) :
    (∀ i v, ((waitForAllToFinish timeout start_time trace).2)[i]? = some v →
      v = backoffFrom 250 (i + 1) ∧ v ≤ 1000000) ∧
    (∀ p e, (waitForAllToFinish timeout start_time trace).1 =
        some (Status.timedOut p e) →
      ∃ obs ∈ trace, obs.pending = p ∧ p ≠ 0 ∧ e = obs.now - start_time ∧
        timeout < e) ∧
    (∀ pre obs post, trace = pre ++ obs :: post →
      (∀ o ∈ pre, o.pending ≠ 0 ∧ o.now - start_time ≤ timeout) →
      obs.pending ≠ 0 → timeout < obs.now - start_time →
      (waitForAllToFinish timeout start_time trace).1 =
        some (Status.timedOut obs.pending (obs.now - start_time))) := by
  refine ⟨?_, ?_, ?_⟩
  · intro i v h
    have hv := waitAux_sleeps_char timeout start_time trace 250 i v h
    refine ⟨hv, ?_⟩
    rw [hv]
    show backoffStep (backoffFrom 250 i) ≤ 1000000
    exact Nat.min_le_right _ _
  · intro p e h
    exact waitAux_timedOut_sound timeout start_time trace 250 p e h
  · intro pre obs post htr hpre h0 ht
    rw [show waitForAllToFinish timeout start_time trace =
      waitForAllToFinishAux timeout start_time 250 trace from rfl, htr]
    exact waitAux_timedOut_trigger timeout start_time pre obs post 250 hpre h0 ht

/-- Claim C8 witness (for the amended claim): a trace that times out at
its second poll, after one 312 µs sleep. -/
theorem waitForAllToFinish_spec_witness :
    (waitForAllToFinish 100 0
        [{ pending := 2, now := 50 }, { pending := 2, now := 150 }]).1 =
      some (Status.timedOut 2 150) :=
  (waitForAllToFinish_spec 100 0
    [{ pending := 2, now := 50 }, { pending := 2, now := 150 }]).2.2
    [{ pending := 2, now := 50 }] { pending := 2, now := 150 } [] rfl
    (by intro o ho
        simp only [List.mem_singleton] at ho
        subst ho
        exact ⟨by decide, by decide⟩)
    (by decide) (by decide)
